import Mathlib

/-!
# Storefront backend: cart, favourites, orders and the identity gate

A shallow embedding of `server/controllers/User.js` and
`server/middleware/verifyToken.js`.

* The two Mongoose collections the handlers touch (`User`, `Orders`) are an explicit
  state `Db` that every handler receives and returns.
* `await doc.save()` is `saveUser` / `saveOrder`; each call bumps the counter `writes`,
  so "a persistence write was issued" is a statement about that counter.
* An Express handler ends either in `res.status(s).json(body)` or in `next(err)`;
  that is the `Reply` of a `Step`.
* JavaScript exceptions raised inside a handler's `try` block are values of `JsError`
  handed to `next` by the `catch` block.
* Quantities are JavaScript numbers holding integers: an `Int` stands for the
  integer-valued double of that value. `+=` and `-=` are double operations, so their
  result is rounded by `roundDouble` (53 significant bits, round to nearest, ties to
  even); the result is exact whenever it is a safe integer. A result beyond the largest
  finite double, which JavaScript turns into `Infinity`, has no counterpart in `Int`;
  every statement below that depends on the value of a sum or difference carries an
  explicit safe-integer bound.
-/

namespace Storefront

/-! ## Data model -/

/-- Identifier of a product document (an `ObjectId`). -/
abbrev ProductRef := Nat

/-- Identifier of a user document (an `ObjectId`). -/
abbrev UserRef := Nat

/-- Modelled from the spec: the sub-document schema of `cart` lives in `models/User.js`,
which is not among the sources; the spec gives `CartLine` as
`{ product: ProductRef, quantity: integer }`. -/
structure CartLine where
  product : ProductRef
  quantity : Int
  deriving DecidableEq, Repr

/-- Modelled from the spec: the schema `models/User.js` is not among the sources; the
spec gives a user as profile fields, a `cart` sequence and a `favourites` collection.
The document id is the key under which the document is stored in `Db.users`. -/
structure User where
  name : String
  email : String
  password : String
  cart : List CartLine
  favourites : List ProductRef
  deriving DecidableEq, Repr

/-- Modelled from the spec: the schema `models/Orders.js` is not among the sources; the
fields are the ones `placeOrder` passes to `new Orders(...)`. -/
structure Order where
  products : List CartLine
  user : UserRef
  total_amount : Int
  address : String
  deriving DecidableEq, Repr

/-- Modelled from the spec: a document of the external product catalogue, the target of
`populate`. Only its identity matters to the handlers. -/
structure Product where
  id : ProductRef
  title : String
  deriving DecidableEq, Repr

/-- The backing store: the `User` collection keyed by document id, the `Orders`
collection in insertion order, the product catalogue, and the number of `save()`
calls issued so far. -/
structure Db where
  users : UserRef → Option User
  orders : List Order
  catalog : ProductRef → Option Product
  writes : Nat

/-- A JavaScript error value as the handlers see it: `name`, `message`, and the
`status` that `createError` attaches (absent on runtime exceptions). -/
structure JsError where
  status : Option Nat
  name : String
  message : String
  deriving DecidableEq, Repr

/-- Modelled from the spec: `createError` of `server/error.js` is not among the
sources; it builds an error carrying an error code and a human-readable message. -/
def createError (status : Nat) (message : String) : JsError :=
  { status := some status, name := "Error", message := message }

/-- The `TypeError` raised by reading `property` of a value that is `undefined` or
`null`. -/
def typeError (value property : String) : JsError :=
  { status := none, name := "TypeError",
    message := "Cannot read properties of " ++ value ++ " (reading '" ++ property ++ "')" }

/-- The decoded token payload that `verifyToken` stores in `req.user`; the `id`
claim may be missing from a payload. -/
structure Identity where
  id : Option UserRef
  deriving DecidableEq, Repr

/-- How a handler ends: `res.status(status).json(body)` or `next(err)`. -/
inductive Reply (β : Type) where
  | json (status : Nat) (body : β)
  | next (err : JsError)
  deriving DecidableEq, Repr

/-- Outcome of running a handler: the store afterwards and the reply. -/
structure Step (β : Type) where
  db : Db
  reply : Reply β

/-- Body `{ message, user }` of the cart and favourites replies. -/
structure MessageUser where
  message : String
  user : User
  deriving DecidableEq, Repr

/-- Body `{ message, order }` of the `placeOrder` reply. -/
structure MessageOrder where
  message : String
  order : Order
  deriving DecidableEq, Repr

/-! ## Store primitives -/

/-- The call `User.findById(id)`: Mongoose turns an `undefined` id into `null`, which matches no
document. -/
def findById (db : Db) : Option UserRef → Option User
  | none => none
  | some uid => db.users uid

/-- The call `await user.save()` for the user document with id `uid`. -/
def saveUser (db : Db) (uid : UserRef) (user : User) : Db :=
  { db with users := Function.update db.users uid (some user), writes := db.writes + 1 }

/-- The call `await order.save()` for a freshly built order document. -/
def saveOrder (db : Db) (order : Order) : Db :=
  { db with orders := db.orders ++ [order], writes := db.writes + 1 }

/-- The call `populate("favourites")`: each reference is replaced by the catalogue document it
points to; references without a document are dropped. -/
def populate (db : Db) (refs : List ProductRef) : List Product :=
  refs.filterMap db.catalog

/-! ## Number primitives -/

/-- The spacing of doubles at the magnitude of `m`: the least power of two `ulp`, found
by doubling from the given `ulp`, with `m / ulp` below `2 ^ 53`. The first argument
bounds the number of doublings. -/
def ulpFrom : Nat → Nat → Nat → Nat
  | 0, _, ulp => ulp
  | fuel + 1, m, ulp =>
    if m / ulp < 9007199254740992 then ulp else ulpFrom fuel m (2 * ulp)

/-- The double nearest to the natural number `m`, ties going to the even significand. -/
def roundNat (m : Nat) : Nat :=
  let ulp := ulpFrom m m 1
  let q := m / ulp
  let r := m % ulp
  if 2 * r < ulp then q * ulp
  else if ulp < 2 * r then (q + 1) * ulp
  else if q % 2 = 0 then q * ulp
  else (q + 1) * ulp

/-- The double nearest to the integer `n` (IEEE-754 binary64, round to nearest, ties to
even), as the integer it holds. The exponent is not bounded here: an `n` beyond the
largest finite double, which JavaScript rounds to `Infinity`, is rounded like any other
integer. -/
def roundDouble : Int → Int
  | Int.ofNat m => Int.ofNat (roundNat m)
  | Int.negSucc m => -Int.ofNat (roundNat (m + 1))

/-- The sum `a + b` of two numbers as JavaScript computes it. -/
def jsAdd (a b : Int) : Int :=
  roundDouble (a + b)

/-! ## Array primitives -/

/-- The method `Array.prototype.findIndex`: the first index whose element satisfies `p`, or
`none` for the `-1` of JavaScript. -/
def findIndex {α : Type} (p : α → Bool) : List α → Option Nat
  | [] => none
  | x :: xs => if p x then some 0 else (findIndex p xs).map (· + 1)

/-- The statement `cart[i].quantity += d` (and `-=` with a negated `d`). -/
def addQuantity (cart : List CartLine) (i : Nat) (d : Int) : List CartLine :=
  match cart[i]? with
  | some item => cart.set i { item with quantity := jsAdd item.quantity d }
  | none => cart

/-- The test `cart[i].quantity <= 0`. -/
def quantityNonPositive (cart : List CartLine) (i : Nat) : Bool :=
  match cart[i]? with
  | some item => decide (item.quantity ≤ 0)
  | none => false

/-- The test `quantity && quantity > 0` for a request field that may be absent: the
quantity when the test holds. -/
def positiveQuantity : Option Int → Option Int
  | some q => if q ≠ 0 ∧ q > 0 then some q else none
  | none => none

/-- Lines 69-79 of `addToCart`: look the product up in the cart, add to the quantity
of the line found, or push a new line. -/
def mergeIntoCart (cart : List CartLine) (productId : ProductRef) (quantity : Int) :
    List CartLine :=
  match findIndex (fun item => item.product == productId) cart with
  | some existingCartItemIndex => addQuantity cart existingCartItemIndex quantity
  | none => cart ++ [{ product := productId, quantity := quantity }]

/-- Lines 98-110 of `removeFromCart`: look the product up in the cart; `none` when
`productIndex` is `-1`, else the cart after the decrement and/or `splice`. -/
def takeFromCart (cart : List CartLine) (productId : ProductRef) (quantity : Option Int) :
    Option (List CartLine) :=
  match findIndex (fun item => item.product == productId) cart with
  | some productIndex =>
    match positiveQuantity quantity with
    | some q =>
      let cart := addQuantity cart productIndex (-q)
      if quantityNonPositive cart productIndex then some (cart.eraseIdx productIndex)
      else some cart
    | none => some (cart.eraseIdx productIndex)
  | none => none

/-! ## Controllers -/

/-- Handler `addToCart` of `controllers/User.js`. A missing `req.user` or a `null` user
makes a property read throw, and the `catch` block hands the error to `next`. -/
def addToCart (db : Db) (reqUser : Option Identity) (productId : ProductRef)
    (quantity : Int) : Step MessageUser :=
  match reqUser with
  | none => ⟨db, .next (typeError "undefined" "id")⟩
  | some userJWT =>
    match userJWT.id, findById db userJWT.id with
    | some uid, some user =>
      let user := { user with cart := mergeIntoCart user.cart productId quantity }
      ⟨saveUser db uid user, .json 200 ⟨"Product added to cart successfully", user⟩⟩
    | _, _ => ⟨db, .next (typeError "null" "cart")⟩

/-- Handler `removeFromCart` of `controllers/User.js`. -/
def removeFromCart (db : Db) (reqUser : Option Identity) (productId : ProductRef)
    (quantity : Option Int) : Step MessageUser :=
  match reqUser with
  | none => ⟨db, .next (typeError "undefined" "id")⟩
  | some userJWT =>
    match userJWT.id, findById db userJWT.id with
    | some uid, some user =>
      match takeFromCart user.cart productId quantity with
      | some cart =>
        let user := { user with cart := cart }
        ⟨saveUser db uid user, .json 200 ⟨"Product quantity updated in cart", user⟩⟩
      | none => ⟨db, .next (createError 404 "Product not found in the user's cart")⟩
    | _, _ => ⟨db, .next (createError 404 "User not found")⟩

/-- Handler `placeOrder` of `controllers/User.js`. -/
def placeOrder (db : Db) (reqUser : Option Identity) (products : List CartLine)
    (address : String) (totalAmount : Int) : Step MessageOrder :=
  match reqUser with
  | none => ⟨db, .next (typeError "undefined" "id")⟩
  | some userJWT =>
    match userJWT.id, findById db userJWT.id with
    | some uid, some user =>
      let order : Order :=
        { products := products, user := uid, total_amount := totalAmount,
          address := address }
      let db := saveOrder db order
      let user := { user with cart := [] }
      ⟨saveUser db uid user, .json 200 ⟨"Order placed successfully", order⟩⟩
    | _, _ => ⟨db, .next (typeError "null" "_id")⟩

/-- Handler `addToFavorites` of `controllers/User.js`. `favourites` is a Mongoose array,
whose `includes` compares identifiers by value. -/
def addToFavorites (db : Db) (reqUser : Option Identity) (productId : ProductRef) :
    Step MessageUser :=
  match reqUser with
  | none => ⟨db, .next (typeError "undefined" "id")⟩
  | some userJWT =>
    match userJWT.id, findById db userJWT.id with
    | some uid, some user =>
      if !user.favourites.contains productId then
        let user := { user with favourites := user.favourites ++ [productId] }
        ⟨saveUser db uid user, .json 200 ⟨"Product added to favorites successfully", user⟩⟩
      else
        ⟨db, .json 200 ⟨"Product added to favorites successfully", user⟩⟩
    | _, _ => ⟨db, .next (typeError "null" "favourites")⟩

/-- Handler `removeFromFavorites` of `controllers/User.js`. -/
def removeFromFavorites (db : Db) (reqUser : Option Identity) (productId : ProductRef) :
    Step MessageUser :=
  match reqUser with
  | none => ⟨db, .next (typeError "undefined" "id")⟩
  | some userJWT =>
    match userJWT.id, findById db userJWT.id with
    | some uid, some user =>
      let user :=
        { user with favourites := user.favourites.filter (fun fav => !(fav == productId)) }
      ⟨saveUser db uid user,
        .json 200 ⟨"Product removed from favorites successfully", user⟩⟩
    | _, _ => ⟨db, .next (typeError "null" "favourites")⟩

/-- Handler `getUserFavourites` of `controllers/User.js`. Reading `req.user.id` happens inside
the `try` block, so a request without `req.user` lands in the `catch` block, which
answers `createError(500, error.message)`. -/
def getUserFavourites (db : Db) (reqUser : Option Identity) : Step (List Product) :=
  match reqUser with
  | none => ⟨db, .next (createError 500 (typeError "undefined" "id").message)⟩
  | some identity =>
    match identity.id with
    | none => ⟨db, .next (createError 401 "User not found")⟩
    | some userId =>
      match findById db (some userId) with
      | none => ⟨db, .next (createError 404 "User not found")⟩
      | some user => ⟨db, .json 200 (populate db user.favourites)⟩

/-! ## Identity gate -/

/-- The part of an Express request the gate reads and writes: the `Authorization`
header and the `user` property. -/
structure Request where
  authorization : Option String
  user : Option Identity
  deriving DecidableEq, Repr

/-- The method `String.prototype.split(" ")` on the characters of a string. -/
def splitSpace : List Char → List (List Char)
  | [] => [[]]
  | c :: cs =>
    if c = ' ' then [] :: splitSpace cs
    else
      match splitSpace cs with
      | w :: ws => (c :: w) :: ws
      | [] => [[c]]

/-- The expression `authorization.split(" ")[1]`, absent when the header has no second field. -/
def secondField (authorization : String) : Option String :=
  ((splitSpace authorization.data)[1]?).map String.mk

/-- Outcome of the gate: the request afterwards and the argument given to `next`
(`none` for the plain `next()` that passes control on). -/
structure GateStep where
  req : Request
  next : Option JsError
  deriving DecidableEq, Repr

/-- Middleware `verifyToken` of `middleware/verifyToken.js`; `verify` stands for
`jwt.verify(·, process.env.JWT)`, which returns the decoded payload or throws. -/
def verifyToken (verify : String → Except JsError Identity) (req : Request) : GateStep :=
  match req.authorization with
  | none => ⟨req, some (createError 401 "You are not authenticated!")⟩
  | some authorization =>
    if authorization = "" then ⟨req, some (createError 401 "You are not authenticated!")⟩
    else
      match secondField authorization with
      | none => ⟨req, some (createError 401 "You are not authenticated!")⟩
      | some token =>
        if token = "" then ⟨req, some (createError 401 "You are not authenticated!")⟩
        else
          match verify token with
          | .ok decode => ⟨{ req with user := some decode }, none⟩
          | .error err =>
            let errorMessage :=
              if err.name = "TokenExpiredError" then "Token has expired" else "Invalid token"
            ⟨req, some (createError 401 errorMessage)⟩

/-- The non-empty token the gate hands to `jwt.verify`: present exactly when the
`Authorization` header is non-empty and has a non-empty second field. -/
def requestToken (req : Request) : Option String :=
  match req.authorization with
  | none => none
  | some authorization =>
    if authorization = "" then none
    else
      match secondField authorization with
      | none => none
      | some token => if token = "" then none else some token

/-! ## Specification vocabulary -/

/-- The cart stored for `uid`; empty when there is no such user. -/
def storedCart (db : Db) (uid : UserRef) : List CartLine :=
  match db.users uid with
  | some u => u.cart
  | none => []

/-- The favourites stored for `uid`; empty when there is no such user. -/
def storedFavourites (db : Db) (uid : UserRef) : List ProductRef :=
  match db.users uid with
  | some u => u.favourites
  | none => []

/-- The lines of a cart that refer to product `p`. -/
def linesFor (cart : List CartLine) (p : ProductRef) : List CartLine :=
  cart.filter (fun item => item.product == p)

/-- At most one line per distinct product. -/
def UniqueLines (cart : List CartLine) : Prop :=
  (cart.map (fun item => item.product)).Nodup

/-- Every line has a quantity above zero. -/
def PositiveLines (cart : List CartLine) : Prop :=
  ∀ item ∈ cart, 0 < item.quantity

/-- A safe integer of JavaScript: magnitude at most `2 ^ 53 - 1`. -/
def SafeInteger (n : Int) : Prop :=
  -9007199254740991 ≤ n ∧ n ≤ 9007199254740991

/-- The header text carries `token` after the scheme word: the text is a first word
without spaces, one space, the non-empty `token` without spaces, and then either
nothing or a further space followed by anything. -/
def HeaderToken (authorization : Option String) (token : String) : Prop :=
  ∃ scheme rest : List Char,
    authorization = some (String.mk (scheme ++ ' ' :: (token.data ++ rest))) ∧
      ' ' ∉ scheme ∧ ' ' ∉ token.data ∧ token.data ≠ [] ∧
      (rest = [] ∨ ∃ tail, rest = ' ' :: tail)

/-- The request of an authenticated user whose token carries the id `uid`. -/
def asUser (uid : UserRef) : Option Identity :=
  some { id := some uid }

/-- A call of one of the three handlers that write the cart. -/
inductive CartOp where
  | add (reqUser : Option Identity) (productId : ProductRef) (quantity : Int)
  | remove (reqUser : Option Identity) (productId : ProductRef) (quantity : Option Int)
  | order (reqUser : Option Identity) (products : List CartLine) (address : String)
      (totalAmount : Int)

/-- The store after one cart-mutating call. -/
def CartOp.run (db : Db) : CartOp → Db
  | .add reqUser productId quantity => (addToCart db reqUser productId quantity).db
  | .remove reqUser productId quantity => (removeFromCart db reqUser productId quantity).db
  | .order reqUser products address totalAmount =>
    (placeOrder db reqUser products address totalAmount).db

/-- The store after a sequence of cart-mutating calls, first call first. -/
def runAll (db : Db) (ops : List CartOp) : Db :=
  ops.foldl CartOp.run db

/-! ## Sample data -/

/-- A user with two units of product 7 in the cart and no favourites. -/
def demoUser : User :=
  { name := "Ada", email := "ada@example.com", password := "hash",
    cart := [{ product := 7, quantity := 2 }], favourites := [] }

/-- A store holding `demoUser` under id 1, no orders and one catalogue entry. -/
def demoDb : Db :=
  { users := fun uid => if uid = 1 then some demoUser else none,
    orders := [],
    catalog := fun p => if p = 7 then some { id := 7, title := "Lamp" } else none,
    writes := 0 }

/-- A store whose user 1 holds `2 ^ 53 + 2` units of product 7, a quantity that
`addToCart` stores as given. -/
def bigDb : Db :=
  { demoDb with
    users := fun uid =>
      if uid = 1 then
        some { demoUser with cart := [{ product := 7, quantity := 9007199254740994 }] }
      else none }

/-- A token oracle that accepts `good`, reports `old` as expired and rejects the rest. -/
def demoVerify (token : String) : Except JsError Identity :=
  if token = "good" then .ok { id := some 1 }
  else if token = "old" then
    .error { status := none, name := "TokenExpiredError", message := "jwt expired" }
  else .error { status := none, name := "JsonWebTokenError", message := "jwt malformed" }

/-! ## Number lemmas -/

theorem ulpFrom_bounds (fuel m ulp : Nat) (hpos : 0 < ulp) (hle : ulp ≤ m) :
    0 < ulpFrom fuel m ulp ∧ ulpFrom fuel m ulp ≤ m := by
  induction fuel generalizing ulp with
  | zero => exact ⟨hpos, hle⟩
  | succ fuel ih =>
    unfold ulpFrom
    by_cases hlt : m / ulp < 9007199254740992
    · simp only [hlt, if_true]
      exact ⟨hpos, hle⟩
    · simp only [hlt, if_false]
      apply ih (2 * ulp) (by omega)
      have h2 : 2 ≤ m / ulp := by omega
      have hmul := Nat.mul_le_of_le_div ulp 2 m (by omega)
      omega

theorem roundNat_of_lt (m : Nat) (h : m < 9007199254740992) : roundNat m = m := by
  have hulp : ulpFrom m m 1 = 1 := by
    cases m with
    | zero => rfl
    | succ k =>
      unfold ulpFrom
      simp [h]
  unfold roundNat
  simp only [hulp, Nat.mod_one, Nat.div_one, Nat.mul_one]
  simp

theorem roundNat_pos (m : Nat) (h : 0 < m) : 0 < roundNat m := by
  obtain ⟨hpos, hle⟩ := ulpFrom_bounds m m 1 (by omega) (by omega)
  have hq : 0 < m / ulpFrom m m 1 := Nat.div_pos hle hpos
  unfold roundNat
  simp only []
  split
  · exact Nat.mul_pos hq hpos
  · split
    · exact Nat.mul_pos (by omega) hpos
    · split
      · exact Nat.mul_pos hq hpos
      · exact Nat.mul_pos (by omega) hpos

theorem roundDouble_ofNat (m : Nat) : roundDouble (Int.ofNat m) = Int.ofNat (roundNat m) :=
  rfl

theorem roundDouble_negSucc (m : Nat) :
    roundDouble (Int.negSucc m) = -Int.ofNat (roundNat (m + 1)) :=
  rfl

theorem roundDouble_pos_iff (n : Int) : 0 < roundDouble n ↔ 0 < n := by
  cases n with
  | ofNat m =>
    rw [roundDouble_ofNat]
    by_cases hm : 0 < m
    · have := roundNat_pos m hm
      simp only [Int.ofNat_eq_coe]
      omega
    · have hm0 : m = 0 := by omega
      subst hm0
      rw [roundNat_of_lt 0 (by omega)]
  | negSucc m =>
    rw [roundDouble_negSucc]
    have := roundNat_pos (m + 1) (by omega)
    have hneg : Int.negSucc m < 0 := Int.negSucc_lt_zero m
    simp only [Int.ofNat_eq_coe]
    omega

theorem roundDouble_nonpos_iff (n : Int) : roundDouble n ≤ 0 ↔ n ≤ 0 := by
  have := roundDouble_pos_iff n
  omega

theorem roundDouble_of_safe (n : Int) (h : SafeInteger n) : roundDouble n = n := by
  obtain ⟨hlo, hhi⟩ := h
  cases n with
  | ofNat m =>
    simp only [Int.ofNat_eq_coe] at hhi
    rw [roundDouble_ofNat, roundNat_of_lt m (by omega)]
  | negSucc m =>
    have hm : Int.negSucc m = -((m : Int) + 1) := Int.negSucc_eq m
    rw [hm] at hlo
    rw [roundDouble_negSucc, roundNat_of_lt (m + 1) (by omega), hm]
    simp

theorem jsAdd_of_safe (a b : Int) (h : SafeInteger (a + b)) : jsAdd a b = a + b :=
  roundDouble_of_safe (a + b) h

theorem jsAdd_pos (a b : Int) (ha : 0 < a) (hb : 0 < b) : 0 < jsAdd a b :=
  (roundDouble_pos_iff (a + b)).mpr (by omega)

theorem jsAdd_neg_nonpos_iff (c q : Int) : jsAdd c (-q) ≤ 0 ↔ c - q ≤ 0 := by
  unfold jsAdd
  rw [roundDouble_nonpos_iff]
  omega

theorem jsAdd_neg_of_safe (c q : Int) (h : SafeInteger (c - q)) : jsAdd c (-q) = c - q := by
  have hsub : c + -q = c - q := by ring
  unfold jsAdd
  rw [hsub]
  exact roundDouble_of_safe (c - q) h

theorem safeInteger_between (lo n hi : Int) (hlo : SafeInteger lo) (hhi : SafeInteger hi)
    (h1 : lo ≤ n) (h2 : n ≤ hi) : SafeInteger n := by
  unfold SafeInteger at *
  omega

/-! ## Array lemmas -/

theorem findIndex_eq_none {α : Type} (p : α → Bool) (xs : List α) :
    findIndex p xs = none ↔ ∀ x ∈ xs, p x = false := by
  induction xs with
  | nil => simp [findIndex]
  | cons x xs ih =>
    by_cases hx : p x = true
    · simp [findIndex, hx]
    · simp [findIndex, hx, ih]

theorem findIndex_append_cons {α : Type} (p : α → Bool) (pre : List α) (l : α)
    (post : List α) (hpre : ∀ x ∈ pre, p x = false) (hl : p l = true) :
    findIndex p (pre ++ l :: post) = some pre.length := by
  induction pre with
  | nil => simp [findIndex, hl]
  | cons x xs ih =>
    have hx : p x = false := hpre x (List.mem_cons_self _ _)
    have hxs : ∀ y ∈ xs, p y = false := fun y hy => hpre y (List.mem_cons_of_mem _ hy)
    simp [findIndex, hx, ih hxs]

theorem findIndex_some_split {α : Type} (p : α → Bool) (xs : List α) (i : Nat)
    (h : findIndex p xs = some i) :
    ∃ pre l post, xs = pre ++ l :: post ∧ pre.length = i ∧
      (∀ x ∈ pre, p x = false) ∧ p l = true := by
  induction xs generalizing i with
  | nil => simp [findIndex] at h
  | cons x xs ih =>
    by_cases hx : p x = true
    · simp [findIndex, hx] at h
      exact ⟨[], x, xs, rfl, by simp [h], by simp, hx⟩
    · simp [findIndex, hx] at h
      obtain ⟨j, hj, rfl⟩ := h
      obtain ⟨pre, l, post, rfl, hlen, hpre, hl⟩ := ih j hj
      refine ⟨x :: pre, l, post, rfl, by simp [hlen], ?_, hl⟩
      intro y hy
      rcases List.mem_cons.mp hy with rfl | hy
      · exact Bool.eq_false_iff.mpr hx
      · exact hpre y hy

theorem getElem?_split {α : Type} (pre : List α) (l : α) (post : List α) :
    (pre ++ l :: post)[pre.length]? = some l := by
  induction pre with
  | nil => simp
  | cons x xs ih => simpa using ih

theorem set_split {α : Type} (pre : List α) (l l' : α) (post : List α) :
    (pre ++ l :: post).set pre.length l' = pre ++ l' :: post := by
  induction pre with
  | nil => simp
  | cons x xs ih => simp

theorem eraseIdx_split {α : Type} (pre : List α) (l : α) (post : List α) :
    (pre ++ l :: post).eraseIdx pre.length = pre ++ post := by
  induction pre with
  | nil => simp
  | cons x xs ih => simpa using ih

theorem addQuantity_split (pre : List CartLine) (l : CartLine) (post : List CartLine)
    (d : Int) :
    addQuantity (pre ++ l :: post) pre.length d
      = pre ++ { product := l.product, quantity := jsAdd l.quantity d } :: post := by
  unfold addQuantity
  rw [getElem?_split]
  simp [set_split]

theorem quantityNonPositive_split (pre : List CartLine) (l : CartLine)
    (post : List CartLine) :
    quantityNonPositive (pre ++ l :: post) pre.length = decide (l.quantity ≤ 0) := by
  unfold quantityNonPositive
  rw [getElem?_split]

theorem positiveQuantity_eq_some (quantity : Option Int) (q : Int) :
    positiveQuantity quantity = some q ↔ quantity = some q ∧ 0 < q := by
  cases quantity with
  | none => simp [positiveQuantity]
  | some r =>
    by_cases hr : 0 < r
    · have : r ≠ 0 := by omega
      simp [positiveQuantity, hr, this]
      intro h; subst h; exact hr
    · simp [positiveQuantity, hr]
      intro h; subst h; omega

theorem positiveQuantity_eq_none (quantity : Option Int) :
    positiveQuantity quantity = none ↔ quantity = none ∨ ∃ q, quantity = some q ∧ q ≤ 0 := by
  cases quantity with
  | none => simp [positiveQuantity]
  | some r =>
    by_cases hr : 0 < r
    · have : r ≠ 0 := by omega
      simp [positiveQuantity, hr, this]
    · simp [positiveQuantity, hr]
      omega

/-! ## Cart lemmas -/

theorem beq_product_false_of_ne (productId : ProductRef) (pre : List CartLine)
    (hpre : ∀ x ∈ pre, x.product ≠ productId) :
    ∀ x ∈ pre, (fun item : CartLine => item.product == productId) x = false := by
  intro x hx
  simpa using hpre x hx

theorem mergeIntoCart_found (pre : List CartLine) (l : CartLine) (post : List CartLine)
    (productId : ProductRef) (quantity : Int)
    (hpre : ∀ x ∈ pre, x.product ≠ productId) (hl : l.product = productId) :
    mergeIntoCart (pre ++ l :: post) productId quantity
      = pre ++ { product := productId, quantity := jsAdd l.quantity quantity } :: post := by
  unfold mergeIntoCart
  rw [findIndex_append_cons _ pre l post (beq_product_false_of_ne productId pre hpre)
    (by simp [hl])]
  simp [addQuantity_split, hl]

theorem mergeIntoCart_fresh (cart : List CartLine) (productId : ProductRef)
    (quantity : Int) (hcart : ∀ x ∈ cart, x.product ≠ productId) :
    mergeIntoCart cart productId quantity
      = cart ++ [{ product := productId, quantity := quantity }] := by
  unfold mergeIntoCart
  rw [(findIndex_eq_none _ cart).mpr (beq_product_false_of_ne productId cart hcart)]

theorem takeFromCart_none (cart : List CartLine) (productId : ProductRef)
    (quantity : Option Int) :
    takeFromCart cart productId quantity = none ↔ ∀ x ∈ cart, x.product ≠ productId := by
  unfold takeFromCart
  cases hfind : findIndex (fun item : CartLine => item.product == productId) cart with
  | none =>
    have := (findIndex_eq_none _ cart).mp hfind
    simpa using this
  | some i =>
    have hne : ¬ ∀ x ∈ cart, x.product ≠ productId := by
      intro hall
      have := (findIndex_eq_none _ cart).mpr (beq_product_false_of_ne productId cart hall)
      rw [hfind] at this
      cases this
    cases positiveQuantity quantity with
    | none => simpa using hne
    | some q =>
      by_cases hq : quantityNonPositive (addQuantity cart i (-q)) i = true
      · simpa [hq] using hne
      · simpa [hq] using hne

theorem takeFromCart_found (pre : List CartLine) (l : CartLine) (post : List CartLine)
    (productId : ProductRef) (quantity : Option Int)
    (hpre : ∀ x ∈ pre, x.product ≠ productId) (hl : l.product = productId) :
    takeFromCart (pre ++ l :: post) productId quantity
      = match positiveQuantity quantity with
        | some q =>
          if l.quantity - q ≤ 0 then some (pre ++ post)
          else
            some (pre ++ { product := productId, quantity := jsAdd l.quantity (-q) } :: post)
        | none => some (pre ++ post) := by
  unfold takeFromCart
  rw [findIndex_append_cons _ pre l post (beq_product_false_of_ne productId pre hpre)
    (by simp [hl])]
  cases positiveQuantity quantity with
  | none => simp [eraseIdx_split]
  | some q =>
    simp only [addQuantity_split, quantityNonPositive_split, eraseIdx_split, hl]
    by_cases hle : l.quantity - q ≤ 0
    · have hjs := (jsAdd_neg_nonpos_iff l.quantity q).mpr hle
      simp [hjs, hle]
    · have hjs : ¬ jsAdd l.quantity (-q) ≤ 0 := fun h =>
        hle ((jsAdd_neg_nonpos_iff l.quantity q).mp h)
      simp [hjs, hle]

/-! ## Store lemmas -/

theorem storedCart_of_some (db : Db) (uid : UserRef) (u : User) (h : db.users uid = some u) :
    storedCart db uid = u.cart := by
  simp [storedCart, h]

theorem storedCart_saveUser_same (db : Db) (uid : UserRef) (u : User) :
    storedCart (saveUser db uid u) uid = u.cart := by
  simp [storedCart, saveUser]

theorem storedCart_saveUser_other (db : Db) (uid other : UserRef) (u : User)
    (h : other ≠ uid) : storedCart (saveUser db uid u) other = storedCart db other := by
  simp [storedCart, saveUser, Function.update, h]

theorem storedCart_saveOrder (db : Db) (order : Order) (uid : UserRef) :
    storedCart (saveOrder db order) uid = storedCart db uid := by
  simp [storedCart, saveOrder]

theorem addToCart_asUser (db : Db) (uid : UserRef) (u : User) (productId : ProductRef)
    (quantity : Int) (hu : db.users uid = some u) :
    addToCart db (asUser uid) productId quantity
      = ⟨saveUser db uid { u with cart := mergeIntoCart u.cart productId quantity },
          .json 200 ⟨"Product added to cart successfully",
            { u with cart := mergeIntoCart u.cart productId quantity }⟩⟩ := by
  simp [addToCart, asUser, findById, hu]

theorem removeFromCart_asUser (db : Db) (uid : UserRef) (u : User) (productId : ProductRef)
    (quantity : Option Int) (cart : List CartLine) (hu : db.users uid = some u)
    (hcart : takeFromCart u.cart productId quantity = some cart) :
    removeFromCart db (asUser uid) productId quantity
      = ⟨saveUser db uid { u with cart := cart },
          .json 200 ⟨"Product quantity updated in cart", { u with cart := cart }⟩⟩ := by
  simp [removeFromCart, asUser, findById, hu, hcart]

/-! ## Claims on the cart -/

/-- C1, as stated, fails: for the user of `demoDb`, whose cart already holds two units
of product 7, `addToCart` with quantity 3 and then with quantity 1 leaves the single
line `(7, 6)`, not a line of quantity `3 + 1`. -/
theorem addToCart_twice_any_cart_counterexample :
    ¬ ∀ (db : Db) (uid : UserRef) (u : User) (P : ProductRef) (q1 q2 : Int),
        db.users uid = some u → 0 < q1 → 0 < q2 →
        linesFor
            (storedCart (addToCart (addToCart db (asUser uid) P q1).db (asUser uid) P q2).db
              uid) P
          = [{ product := P, quantity := q1 + q2 }] := by
  intro h
  have h6 := h demoDb 1 demoUser 7 3 1 rfl (by decide) (by decide)
  revert h6
  decide

/-- C1, amended: for an existing user and positive `q1`, `q2`, `addToCart(U, P, q1)`
followed by `addToCart(U, P, q2)` does the following. When the stored cart has no line
for `P` and `q1 + q2` is a safe integer, it stores the original cart followed by one
line `(P, q1 + q2)`, which is then the only line for `P`. When the cart already has a
line for `P`, the first such line, of quantity `c`, ends with quantity `c + q1 + q2`
provided `c`, `q1`, `q2` and `c + q1 + q2` are safe integers, and no line is added or
moved. -/
theorem addToCart_twice (db : Db) (uid : UserRef) (u : User) (P : ProductRef)
    (q1 q2 : Int) (hu : db.users uid = some u) (hq1 : 0 < q1) (hq2 : 0 < q2) :
    ((∀ x ∈ u.cart, x.product ≠ P) → SafeInteger (q1 + q2) →
      storedCart (addToCart (addToCart db (asUser uid) P q1).db (asUser uid) P q2).db uid
          = u.cart ++ [{ product := P, quantity := q1 + q2 }] ∧
        linesFor
            (storedCart (addToCart (addToCart db (asUser uid) P q1).db (asUser uid) P q2).db
              uid) P
          = [{ product := P, quantity := q1 + q2 }]) ∧
    (∀ (pre : List CartLine) (l : CartLine) (post : List CartLine),
      u.cart = pre ++ l :: post → (∀ x ∈ pre, x.product ≠ P) → l.product = P →
      SafeInteger l.quantity → SafeInteger q1 → SafeInteger q2 →
      SafeInteger (l.quantity + q1 + q2) →
      storedCart (addToCart (addToCart db (asUser uid) P q1).db (asUser uid) P q2).db uid
        = pre ++ { product := P, quantity := l.quantity + q1 + q2 } :: post) := by
  have h1 := addToCart_asUser db uid u P q1 hu
  have hu1 : (saveUser db uid { u with cart := mergeIntoCart u.cart P q1 }).users uid
      = some { u with cart := mergeIntoCart u.cart P q1 } := by
    simp [saveUser]
  have h2 := addToCart_asUser _ uid _ P q2 hu1
  rw [h1]
  simp only []
  rw [h2]
  simp only [storedCart_saveUser_same]
  constructor
  · intro hfresh hsafe
    have hm1 := mergeIntoCart_fresh u.cart P q1 hfresh
    have hm2 := mergeIntoCart_found u.cart { product := P, quantity := q1 } [] P q2 hfresh rfl
    rw [hm1, hm2]
    simp only [jsAdd_of_safe q1 q2 hsafe]
    refine ⟨trivial, ?_⟩
    have hnone : List.filter (fun item : CartLine => item.product == P) u.cart = [] := by
      rw [List.filter_eq_nil_iff]
      intro x hx
      simpa using hfresh x hx
    simp [linesFor, List.filter_append, hnone]
  · intro pre l post hcart hpre hl hc _ _ hsum
    have hmid : SafeInteger (l.quantity + q1) :=
      safeInteger_between l.quantity (l.quantity + q1) (l.quantity + q1 + q2) hc hsum
        (by omega) (by omega)
    rw [hcart, mergeIntoCart_found pre l post P q1 hpre hl,
      mergeIntoCart_found pre _ post P q2 hpre rfl]
    simp only [jsAdd_of_safe l.quantity q1 hmid, jsAdd_of_safe (l.quantity + q1) q2 hsum]

/-- Witness for `addToCart_twice`: a user with an empty cart adds 3 and then 1 unit of
product 7. -/
theorem addToCart_twice_witness :
    storedCart
        (addToCart
          (addToCart { demoDb with users := fun _ => some { demoUser with cart := [] } }
            (asUser 1) 7 3).db (asUser 1) 7 1).db 1
      = [{ product := 7, quantity := 4 }] :=
  ((addToCart_twice { demoDb with users := fun _ => some { demoUser with cart := [] } } 1
      { demoUser with cart := [] } 7 3 1 rfl (by decide) (by decide)).1
    (by simp) (by unfold SafeInteger; decide)).1

/-- C2, as stated, fails: the user of `bigDb` holds `2 ^ 53 + 2` units of product 7 and
removes one; the code stores the double nearest to `2 ^ 53 + 1`, which is `2 ^ 53`, so
the line ends with quantity 9007199254740992 and not with `c - q`. -/
theorem removeFromCart_exact_difference_counterexample :
    ¬ ∀ (db : Db) (uid : UserRef) (u : User) (productId : ProductRef) (q : Int)
        (pre : List CartLine) (l : CartLine) (post : List CartLine),
        db.users uid = some u → u.cart = pre ++ l :: post →
        (∀ x ∈ pre, x.product ≠ productId) → l.product = productId →
        0 < q → q < l.quantity →
        storedCart (removeFromCart db (asUser uid) productId (some q)).db uid
          = pre ++ { product := productId, quantity := l.quantity - q } :: post := by
  intro h
  have hbig := h bigDb 1
    { demoUser with cart := [{ product := 7, quantity := 9007199254740994 }] } 7 1 []
    { product := 7, quantity := 9007199254740994 } [] rfl rfl (by simp) rfl (by decide)
    (by decide)
  revert hbig
  decide

/-- C2, amended: for an existing user whose cart is `pre ++ l :: post`, with `l` the
first line for `productId` and `c = l.quantity`, `removeFromCart` answers 200 with the
saved user, and the stored cart is `pre ++ post` (the line deleted) when the quantity
is absent, zero, negative, or positive with `c ≤ q`, and is
`pre ++ (productId, c - q) :: post` when `0 < q < c` and `c` is a safe integer; the
lines of `pre` and `post` are untouched and keep their order. -/
theorem removeFromCart_result (db : Db) (uid : UserRef) (u : User) (productId : ProductRef)
    (quantity : Option Int) (pre : List CartLine) (l : CartLine) (post : List CartLine)
    (hu : db.users uid = some u) (hcart : u.cart = pre ++ l :: post)
    (hpre : ∀ x ∈ pre, x.product ≠ productId) (hl : l.product = productId) :
    (∃ saved : User,
      (removeFromCart db (asUser uid) productId quantity).reply
          = .json 200 ⟨"Product quantity updated in cart", saved⟩ ∧
        (removeFromCart db (asUser uid) productId quantity).db.users uid = some saved ∧
        saved = { u with cart := saved.cart }) ∧
    ((quantity = none ∨ ∃ q, quantity = some q ∧ (q ≤ 0 ∨ l.quantity ≤ q)) →
      storedCart (removeFromCart db (asUser uid) productId quantity).db uid = pre ++ post) ∧
    (∀ q, quantity = some q → 0 < q → q < l.quantity → SafeInteger l.quantity →
      storedCart (removeFromCart db (asUser uid) productId quantity).db uid
        = pre ++ { product := productId, quantity := l.quantity - q } :: post) := by
  have hfound := takeFromCart_found pre l post productId quantity hpre hl
  rw [← hcart] at hfound
  obtain ⟨cart, hsome⟩ : ∃ cart, takeFromCart u.cart productId quantity = some cart := by
    rw [hfound]
    cases positiveQuantity quantity with
    | none => exact ⟨_, rfl⟩
    | some q =>
      by_cases hle : l.quantity - q ≤ 0
      · exact ⟨pre ++ post, by simp [hle]⟩
      · exact ⟨pre ++ { product := productId, quantity := jsAdd l.quantity (-q) } :: post,
          by simp [hle]⟩
  rw [removeFromCart_asUser db uid u productId quantity cart hu hsome]
  simp only [storedCart_saveUser_same]
  refine ⟨⟨{ u with cart := cart }, rfl, by simp [saveUser], rfl⟩, ?_, ?_⟩
  · intro hq
    have hcases : positiveQuantity quantity = none ∨
        ∃ q, positiveQuantity quantity = some q ∧ l.quantity - q ≤ 0 := by
      rcases hq with hnone | ⟨q, hq, hle⟩
      · left
        exact (positiveQuantity_eq_none quantity).mpr (Or.inl hnone)
      · by_cases hpos : 0 < q
        · right
          refine ⟨q, (positiveQuantity_eq_some quantity q).mpr ⟨hq, hpos⟩, ?_⟩
          omega
        · left
          exact (positiveQuantity_eq_none quantity).mpr (Or.inr ⟨q, hq, by omega⟩)
    rcases hcases with hnone | ⟨q, hpq, hle⟩
    · rw [hnone] at hfound
      rw [hfound] at hsome
      exact (Option.some.inj hsome).symm
    · rw [hpq] at hfound
      simp only [hle, if_true] at hfound
      rw [hfound] at hsome
      exact (Option.some.inj hsome).symm
  · intro q hq hpos hlt hsafe
    have hpq := (positiveQuantity_eq_some quantity q).mpr ⟨hq, hpos⟩
    have hnle : ¬ l.quantity - q ≤ 0 := by omega
    have hdiff : SafeInteger (l.quantity - q) :=
      safeInteger_between 0 (l.quantity - q) l.quantity (by unfold SafeInteger; omega) hsafe
        (by omega) (by omega)
    rw [hpq] at hfound
    simp only [hnle, if_false, jsAdd_neg_of_safe l.quantity q hdiff] at hfound
    rw [hfound] at hsome
    exact (Option.some.inj hsome).symm

/-- Witness for `removeFromCart_result`: the user of `demoDb` holds two units of
product 7 and removes one. -/
theorem removeFromCart_result_witness :
    storedCart (removeFromCart demoDb (asUser 1) 7 (some 1)).db 1
      = [{ product := 7, quantity := 1 }] :=
  (removeFromCart_result demoDb 1 demoUser 7 (some 1) [] { product := 7, quantity := 2 } []
      rfl rfl (by simp) rfl).2.2 1 rfl (by decide) (by decide) (by unfold SafeInteger; decide)

/-! ## Invariant lemmas -/

theorem cart_split (cart : List CartLine) (productId : ProductRef) :
    (∀ x ∈ cart, x.product ≠ productId) ∨
      ∃ pre l post, cart = pre ++ l :: post ∧ (∀ x ∈ pre, x.product ≠ productId) ∧
        l.product = productId := by
  cases hfind : findIndex (fun item : CartLine => item.product == productId) cart with
  | none =>
    left
    have := (findIndex_eq_none _ cart).mp hfind
    simpa using this
  | some i =>
    right
    obtain ⟨pre, l, post, hcart, _, hpre, hl⟩ := findIndex_some_split _ cart i hfind
    refine ⟨pre, l, post, hcart, ?_, by simpa using hl⟩
    intro x hx
    simpa using hpre x hx

theorem mergeIntoCart_cases (cart : List CartLine) (productId : ProductRef)
    (quantity : Int) :
    ((∀ x ∈ cart, x.product ≠ productId) ∧
        mergeIntoCart cart productId quantity
          = cart ++ [{ product := productId, quantity := quantity }]) ∨
      ∃ pre l post, cart = pre ++ l :: post ∧ (∀ x ∈ pre, x.product ≠ productId) ∧
        l.product = productId ∧
        mergeIntoCart cart productId quantity
          = pre ++ { product := productId, quantity := jsAdd l.quantity quantity } :: post := by
  rcases cart_split cart productId with hfresh | ⟨pre, l, post, hcart, hpre, hl⟩
  · exact Or.inl ⟨hfresh, mergeIntoCart_fresh cart productId quantity hfresh⟩
  · refine Or.inr ⟨pre, l, post, hcart, hpre, hl, ?_⟩
    rw [hcart]
    exact mergeIntoCart_found pre l post productId quantity hpre hl

theorem takeFromCart_cases (cart : List CartLine) (productId : ProductRef)
    (quantity : Option Int) (cart' : List CartLine)
    (h : takeFromCart cart productId quantity = some cart') :
    ∃ pre l post, cart = pre ++ l :: post ∧ (∀ x ∈ pre, x.product ≠ productId) ∧
      l.product = productId ∧
      (cart' = pre ++ post ∨
        ∃ q, quantity = some q ∧ 0 < q ∧ 0 < jsAdd l.quantity (-q) ∧
          cart' = pre ++ { product := productId, quantity := jsAdd l.quantity (-q) } :: post) := by
  rcases cart_split cart productId with hfresh | ⟨pre, l, post, hcart, hpre, hl⟩
  · rw [(takeFromCart_none cart productId quantity).mpr hfresh] at h
    cases h
  · refine ⟨pre, l, post, hcart, hpre, hl, ?_⟩
    rw [hcart, takeFromCart_found pre l post productId quantity hpre hl] at h
    cases hpq : positiveQuantity quantity with
    | none =>
      rw [hpq] at h
      exact Or.inl (Option.some.inj h).symm
    | some q =>
      rw [hpq] at h
      obtain ⟨hq, hpos⟩ := (positiveQuantity_eq_some quantity q).mp hpq
      by_cases hle : l.quantity - q ≤ 0
      · simp only [hle, if_true] at h
        exact Or.inl (Option.some.inj h).symm
      · simp only [hle, if_false] at h
        have hjs : 0 < jsAdd l.quantity (-q) := by
          have := jsAdd_neg_nonpos_iff l.quantity q
          omega
        exact Or.inr ⟨q, hq, hpos, hjs, (Option.some.inj h).symm⟩

theorem mergeIntoCart_unique (cart : List CartLine) (productId : ProductRef)
    (quantity : Int) (h : UniqueLines cart) :
    UniqueLines (mergeIntoCart cart productId quantity) := by
  unfold UniqueLines at *
  rcases mergeIntoCart_cases cart productId quantity with
    ⟨hfresh, hm⟩ | ⟨pre, l, post, hcart, _, hl, hm⟩
  · rw [hm, List.map_append, List.nodup_append]
    refine ⟨h, by simp, ?_⟩
    intro a ha hb
    simp only [List.map_cons, List.map_nil, List.mem_singleton] at hb
    obtain ⟨x, hx, hxa⟩ := List.mem_map.mp ha
    exact hfresh x hx (hxa.trans hb)
  · rw [hm]
    rw [hcart] at h
    simpa [hl] using h

theorem takeFromCart_unique (cart : List CartLine) (productId : ProductRef)
    (quantity : Option Int) (cart' : List CartLine)
    (hsome : takeFromCart cart productId quantity = some cart') (h : UniqueLines cart) :
    UniqueLines cart' := by
  unfold UniqueLines at *
  obtain ⟨pre, l, post, hcart, _, hl, hres⟩ :=
    takeFromCart_cases cart productId quantity cart' hsome
  rw [hcart] at h
  rcases hres with hres | ⟨q, _, _, _, hres⟩
  · rw [hres]
    refine h.sublist ?_
    simp only [List.map_append, List.map_cons]
    exact (List.Sublist.refl _).append (List.sublist_cons_self _ _)
  · rw [hres]
    simpa [hl] using h

theorem mergeIntoCart_positive (cart : List CartLine) (productId : ProductRef)
    (quantity : Int) (hq : 0 < quantity) (h : PositiveLines cart) :
    PositiveLines (mergeIntoCart cart productId quantity) := by
  unfold PositiveLines at *
  rcases mergeIntoCart_cases cart productId quantity with
    ⟨_, hm⟩ | ⟨pre, l, post, hcart, _, _, hm⟩
  · rw [hm]
    intro item hitem
    rcases List.mem_append.mp hitem with hin | hin
    · exact h item hin
    · simp only [List.mem_singleton] at hin
      rw [hin]
      exact hq
  · rw [hm]
    rw [hcart] at h
    intro item hitem
    rcases List.mem_append.mp hitem with hin | hin
    · exact h item (List.mem_append_left _ hin)
    · rcases List.mem_cons.mp hin with hin | hin
      · have hlpos := h l (List.mem_append_right _ (List.mem_cons_self _ _))
        rw [hin]
        exact jsAdd_pos l.quantity quantity hlpos hq
      · exact h item (List.mem_append_right _ (List.mem_cons_of_mem _ hin))

theorem takeFromCart_positive (cart : List CartLine) (productId : ProductRef)
    (quantity : Option Int) (cart' : List CartLine)
    (hsome : takeFromCart cart productId quantity = some cart') (h : PositiveLines cart) :
    PositiveLines cart' := by
  unfold PositiveLines at *
  obtain ⟨pre, l, post, hcart, _, _, hres⟩ :=
    takeFromCart_cases cart productId quantity cart' hsome
  rw [hcart] at h
  rcases hres with hres | ⟨q, _, _, hpos, hres⟩
  · rw [hres]
    intro item hitem
    rcases List.mem_append.mp hitem with hin | hin
    · exact h item (List.mem_append_left _ hin)
    · exact h item (List.mem_append_right _ (List.mem_cons_of_mem _ hin))
  · rw [hres]
    intro item hitem
    rcases List.mem_append.mp hitem with hin | hin
    · exact h item (List.mem_append_left _ hin)
    · rcases List.mem_cons.mp hin with hin | hin
      · rw [hin]
        exact hpos
      · exact h item (List.mem_append_right _ (List.mem_cons_of_mem _ hin))

theorem addToCart_db (db : Db) (reqUser : Option Identity) (productId : ProductRef)
    (quantity : Int) :
    (addToCart db reqUser productId quantity).db = db ∨
      ∃ uid u, db.users uid = some u ∧
        (addToCart db reqUser productId quantity).db
          = saveUser db uid { u with cart := mergeIntoCart u.cart productId quantity } := by
  unfold addToCart
  cases reqUser with
  | none => exact Or.inl rfl
  | some userJWT =>
    obtain ⟨id⟩ := userJWT
    cases id with
    | none => exact Or.inl (by simp [findById])
    | some uid =>
      cases hu : db.users uid with
      | none => exact Or.inl (by simp [findById, hu])
      | some u => exact Or.inr ⟨uid, u, hu, by simp [findById, hu]⟩

theorem removeFromCart_db (db : Db) (reqUser : Option Identity) (productId : ProductRef)
    (quantity : Option Int) :
    (removeFromCart db reqUser productId quantity).db = db ∨
      ∃ uid u cart, db.users uid = some u ∧
        takeFromCart u.cart productId quantity = some cart ∧
        (removeFromCart db reqUser productId quantity).db
          = saveUser db uid { u with cart := cart } := by
  unfold removeFromCart
  cases reqUser with
  | none => exact Or.inl rfl
  | some userJWT =>
    obtain ⟨id⟩ := userJWT
    cases id with
    | none => exact Or.inl (by simp [findById])
    | some uid =>
      cases hu : db.users uid with
      | none => exact Or.inl (by simp [findById, hu])
      | some u =>
        cases hcart : takeFromCart u.cart productId quantity with
        | none => exact Or.inl (by simp [findById, hu, hcart])
        | some cart => exact Or.inr ⟨uid, u, cart, hu, hcart, by simp [findById, hu, hcart]⟩

theorem placeOrder_db (db : Db) (reqUser : Option Identity) (products : List CartLine)
    (address : String) (totalAmount : Int) :
    (placeOrder db reqUser products address totalAmount).db = db ∨
      ∃ uid u, db.users uid = some u ∧
        (placeOrder db reqUser products address totalAmount).db
          = saveUser
              (saveOrder db
                { products := products, user := uid, total_amount := totalAmount,
                  address := address })
              uid { u with cart := [] } := by
  unfold placeOrder
  cases reqUser with
  | none => exact Or.inl rfl
  | some userJWT =>
    obtain ⟨id⟩ := userJWT
    cases id with
    | none => exact Or.inl (by simp [findById])
    | some uid =>
      cases hu : db.users uid with
      | none => exact Or.inl (by simp [findById, hu])
      | some u => exact Or.inr ⟨uid, u, hu, by simp [findById, hu]⟩

theorem storedCart_saveUser_preserves (I : List CartLine → Prop) (db : Db)
    (uid target : UserRef) (u : User) (hold : I (storedCart db target)) (hnew : I u.cart) :
    I (storedCart (saveUser db uid u) target) := by
  by_cases h : target = uid
  · subst h
    rw [storedCart_saveUser_same]
    exact hnew
  · rw [storedCart_saveUser_other db uid target u h]
    exact hold

theorem addToCart_preserves (I : List CartLine → Prop) (productId : ProductRef)
    (quantity : Int)
    (hI : ∀ cart, I cart → I (mergeIntoCart cart productId quantity))
    (db : Db) (reqUser : Option Identity) (target : UserRef)
    (h : I (storedCart db target)) :
    I (storedCart (addToCart db reqUser productId quantity).db target) := by
  rcases addToCart_db db reqUser productId quantity with hdb | ⟨uid, u, hu, hdb⟩
  · rw [hdb]
    exact h
  · rw [hdb]
    by_cases ht : target = uid
    · subst ht
      rw [storedCart_saveUser_same]
      rw [storedCart_of_some db target u hu] at h
      exact hI u.cart h
    · rw [storedCart_saveUser_other db uid target _ ht]
      exact h

theorem removeFromCart_preserves (I : List CartLine → Prop) (productId : ProductRef)
    (quantity : Option Int)
    (hI : ∀ cart cart', takeFromCart cart productId quantity = some cart' → I cart → I cart')
    (db : Db) (reqUser : Option Identity) (target : UserRef)
    (h : I (storedCart db target)) :
    I (storedCart (removeFromCart db reqUser productId quantity).db target) := by
  rcases removeFromCart_db db reqUser productId quantity with
    hdb | ⟨uid, u, cart, hu, hcart, hdb⟩
  · rw [hdb]
    exact h
  · rw [hdb]
    by_cases ht : target = uid
    · subst ht
      rw [storedCart_saveUser_same]
      rw [storedCart_of_some db target u hu] at h
      exact hI u.cart cart hcart h
    · rw [storedCart_saveUser_other db uid target _ ht]
      exact h

theorem placeOrder_preserves (I : List CartLine → Prop) (hnil : I [])
    (db : Db) (reqUser : Option Identity) (products : List CartLine) (address : String)
    (totalAmount : Int) (target : UserRef) (h : I (storedCart db target)) :
    I (storedCart (placeOrder db reqUser products address totalAmount).db target) := by
  rcases placeOrder_db db reqUser products address totalAmount with hdb | ⟨uid, u, _, hdb⟩
  · rw [hdb]
    exact h
  · rw [hdb]
    apply storedCart_saveUser_preserves I
    · rw [storedCart_saveOrder]
      exact h
    · exact hnil

theorem uniqueLines_nil : UniqueLines [] := by
  simp [UniqueLines]

theorem positiveLines_nil : PositiveLines [] := by
  simp [PositiveLines]

theorem run_unique (db : Db) (op : CartOp) (target : UserRef)
    (h : UniqueLines (storedCart db target)) :
    UniqueLines (storedCart (CartOp.run db op) target) := by
  cases op with
  | add reqUser productId quantity =>
    exact addToCart_preserves UniqueLines productId quantity
      (fun cart hc => mergeIntoCart_unique cart productId quantity hc) db reqUser target h
  | remove reqUser productId quantity =>
    exact removeFromCart_preserves UniqueLines productId quantity
      (fun cart cart' hs hc => takeFromCart_unique cart productId quantity cart' hs hc)
      db reqUser target h
  | order reqUser products address totalAmount =>
    exact placeOrder_preserves UniqueLines uniqueLines_nil db reqUser products address
      totalAmount target h

theorem runAll_unique (ops : List CartOp) (db : Db) (target : UserRef)
    (h : UniqueLines (storedCart db target)) :
    UniqueLines (storedCart (runAll db ops) target) := by
  induction ops generalizing db with
  | nil => exact h
  | cons op ops ih => exact ih (CartOp.run db op) (run_unique db op target h)

/-! ## Claims on the cart invariants -/

/-- C3: if the cart stored for a user has at most one line per product, it still has
after `addToCart` with any product and quantity, after `removeFromCart` with any
product and quantity, and after `placeOrder`, whoever the caller is; hence the cart
stored after any sequence of these calls, started from an empty stored cart, has no
two lines with the same product. -/
theorem cart_unique_invariant (target : UserRef) :
    (∀ db reqUser productId quantity, UniqueLines (storedCart db target) →
      UniqueLines (storedCart (addToCart db reqUser productId quantity).db target)) ∧
    (∀ db reqUser productId quantity, UniqueLines (storedCart db target) →
      UniqueLines (storedCart (removeFromCart db reqUser productId quantity).db target)) ∧
    (∀ db reqUser products address totalAmount, UniqueLines (storedCart db target) →
      UniqueLines
        (storedCart (placeOrder db reqUser products address totalAmount).db target)) ∧
    (∀ db ops, storedCart db target = [] →
      UniqueLines (storedCart (runAll db ops) target)) := by
  refine ⟨?_, ?_, ?_, ?_⟩
  · intro db reqUser productId quantity h
    exact run_unique db (.add reqUser productId quantity) target h
  · intro db reqUser productId quantity h
    exact run_unique db (.remove reqUser productId quantity) target h
  · intro db reqUser products address totalAmount h
    exact run_unique db (.order reqUser products address totalAmount) target h
  · intro db ops hempty
    apply runAll_unique
    rw [hempty]
    exact uniqueLines_nil

/-- Witness for `cart_unique_invariant`: the cart of `demoDb` has one line, and still
has one line per product after a second product is added. -/
theorem cart_unique_invariant_witness :
    UniqueLines (storedCart demoDb 1) ∧
      UniqueLines (storedCart (addToCart demoDb (asUser 1) 9 4).db 1) :=
  ⟨by simp [UniqueLines, storedCart, demoDb, demoUser],
    (cart_unique_invariant 1).1 demoDb (asUser 1) 9 4
      (by simp [UniqueLines, storedCart, demoDb, demoUser])⟩

/-- C4: if every line of the cart stored for a user has a quantity above zero, so has
every line after `addToCart` with a positive quantity, after `removeFromCart` with any
quantity (positive, zero, negative or absent) and after `placeOrder`; and when
`removeFromCart` with a positive `q` would bring the first line for the product to
`c - q ≤ 0`, that line is deleted from the stored cart. -/
theorem cart_positive_invariant (target : UserRef) :
    (∀ db reqUser productId (quantity : Int), 0 < quantity →
      PositiveLines (storedCart db target) →
      PositiveLines (storedCart (addToCart db reqUser productId quantity).db target)) ∧
    (∀ db reqUser productId (quantity : Option Int), PositiveLines (storedCart db target) →
      PositiveLines (storedCart (removeFromCart db reqUser productId quantity).db target)) ∧
    (∀ db reqUser products address totalAmount, PositiveLines (storedCart db target) →
      PositiveLines
        (storedCart (placeOrder db reqUser products address totalAmount).db target)) ∧
    (∀ db u productId (q : Int) pre l post, db.users target = some u →
      u.cart = pre ++ l :: post → (∀ x ∈ pre, x.product ≠ productId) →
      l.product = productId → 0 < q → l.quantity - q ≤ 0 →
      storedCart (removeFromCart db (asUser target) productId (some q)).db target
        = pre ++ post) := by
  refine ⟨?_, ?_, ?_, ?_⟩
  · intro db reqUser productId quantity hq h
    exact addToCart_preserves PositiveLines productId quantity
      (fun cart hc => mergeIntoCart_positive cart productId quantity hq hc) db reqUser
      target h
  · intro db reqUser productId quantity h
    exact removeFromCart_preserves PositiveLines productId quantity
      (fun cart cart' hs hc => takeFromCart_positive cart productId quantity cart' hs hc)
      db reqUser target h
  · intro db reqUser products address totalAmount h
    exact placeOrder_preserves PositiveLines positiveLines_nil db reqUser products address
      totalAmount target h
  · intro db u productId q pre l post hu hcart hpre hl hq hle
    have hpq := (positiveQuantity_eq_some (some q) q).mpr ⟨rfl, hq⟩
    have hfound := takeFromCart_found pre l post productId (some q) hpre hl
    rw [hpq] at hfound
    simp only [hle, if_true] at hfound
    rw [← hcart] at hfound
    rw [removeFromCart_asUser db target u productId (some q) (pre ++ post) hu hfound]
    exact storedCart_saveUser_same _ _ _

/-- Witness for `cart_positive_invariant`: the cart of `demoDb` has positive
quantities, and still has after one of the two units of product 7 is removed. -/
theorem cart_positive_invariant_witness :
    PositiveLines (storedCart demoDb 1) ∧
      PositiveLines (storedCart (removeFromCart demoDb (asUser 1) 7 (some 1)).db 1) :=
  ⟨by simp [PositiveLines, storedCart, demoDb, demoUser],
    (cart_positive_invariant 1).2.1 demoDb (asUser 1) 7 (some 1)
      (by simp [PositiveLines, storedCart, demoDb, demoUser])⟩

/-- C5: for a request that carries an identity, `removeFromCart` answers with a 404
error exactly when no user record is found for the identity or the cart of the user
found has no line for `productId`; and whenever it answers with an error it leaves the
store as it was: no `save()` is counted and every stored user is unchanged. -/
theorem removeFromCart_not_found (db : Db) (identity : Identity) (productId : ProductRef)
    (quantity : Option Int) :
    ((∃ err, (removeFromCart db (some identity) productId quantity).reply = .next err ∧
          err.status = some 404) ↔
        (findById db identity.id = none ∨
          ∃ u, findById db identity.id = some u ∧ ∀ x ∈ u.cart, x.product ≠ productId)) ∧
    (∀ err, (removeFromCart db (some identity) productId quantity).reply = .next err →
      (removeFromCart db (some identity) productId quantity).db = db ∧
        (removeFromCart db (some identity) productId quantity).db.writes = db.writes ∧
        (removeFromCart db (some identity) productId quantity).db.users = db.users) := by
  obtain ⟨id⟩ := identity
  cases id with
  | none => simp [removeFromCart, findById, createError]
  | some uid =>
    cases hu : db.users uid with
    | none => simp [removeFromCart, findById, hu, createError]
    | some u =>
      cases hcart : takeFromCart u.cart productId quantity with
      | none =>
        have hnone := (takeFromCart_none u.cart productId quantity).mp hcart
        simp only [removeFromCart, findById, hu, hcart]
        refine ⟨⟨fun _ => Or.inr ⟨u, rfl, hnone⟩, fun _ => ⟨_, rfl, rfl⟩⟩, ?_⟩
        intro err _
        simp
      | some cart =>
        have hne : ¬ ∀ x ∈ u.cart, x.product ≠ productId := by
          intro hall
          rw [(takeFromCart_none u.cart productId quantity).mpr hall] at hcart
          cases hcart
        simp only [removeFromCart, findById, hu, hcart]
        refine ⟨⟨?_, ?_⟩, ?_⟩
        · rintro ⟨err, herr, _⟩
          cases herr
        · rintro (h | ⟨v, hv, hall⟩)
          · cases h
          · cases hv
            exact absurd hall hne
        · intro err herr
          cases herr

/-! ## Claims on favourites and orders -/

theorem addToFavorites_absent (db : Db) (uid : UserRef) (u : User) (P : ProductRef)
    (hu : db.users uid = some u) (hP : P ∉ u.favourites) :
    addToFavorites db (asUser uid) P
      = ⟨saveUser db uid { u with favourites := u.favourites ++ [P] },
          .json 200 ⟨"Product added to favorites successfully",
            { u with favourites := u.favourites ++ [P] }⟩⟩ := by
  simp [addToFavorites, asUser, findById, hu, hP]

theorem addToFavorites_present (db : Db) (uid : UserRef) (u : User) (P : ProductRef)
    (hu : db.users uid = some u) (hP : P ∈ u.favourites) :
    addToFavorites db (asUser uid) P
      = ⟨db, .json 200 ⟨"Product added to favorites successfully", u⟩⟩ := by
  simp [addToFavorites, asUser, findById, hu, hP]

/-- C6: for an existing user and a product `P`, a second `addToFavorites(U, P)` right
after a first one leaves the store exactly as the first call left it (same favourites,
no `save()` counted) and answers 200; when `P` was not among the favourites, the two
calls store the old favourites followed by `P`, with `P` occurring once, and count one
`save()` in total; from empty favourites the result is `[P]`. -/
theorem addToFavorites_idempotent (db : Db) (uid : UserRef) (u : User) (P : ProductRef)
    (hu : db.users uid = some u) :
    (addToFavorites (addToFavorites db (asUser uid) P).db (asUser uid) P).db
        = (addToFavorites db (asUser uid) P).db ∧
    (∃ saved,
      (addToFavorites (addToFavorites db (asUser uid) P).db (asUser uid) P).reply
        = .json 200 ⟨"Product added to favorites successfully", saved⟩) ∧
    (P ∉ u.favourites →
      storedFavourites
          (addToFavorites (addToFavorites db (asUser uid) P).db (asUser uid) P).db uid
        = u.favourites ++ [P] ∧
      (storedFavourites
          (addToFavorites (addToFavorites db (asUser uid) P).db (asUser uid) P).db uid).count P
        = 1 ∧
      (addToFavorites (addToFavorites db (asUser uid) P).db (asUser uid) P).db.writes
        = db.writes + 1) ∧
    (u.favourites = [] →
      storedFavourites
          (addToFavorites (addToFavorites db (asUser uid) P).db (asUser uid) P).db uid
        = [P]) := by
  by_cases hP : P ∈ u.favourites
  · have h1 := addToFavorites_present db uid u P hu hP
    rw [h1]
    simp only []
    rw [h1]
    refine ⟨rfl, ⟨u, rfl⟩, fun hn => absurd hP hn, ?_⟩
    intro hnil
    rw [hnil] at hP
    cases hP
  · have h1 := addToFavorites_absent db uid u P hu hP
    have hu1 : (saveUser db uid { u with favourites := u.favourites ++ [P] }).users uid
        = some { u with favourites := u.favourites ++ [P] } := by
      simp [saveUser]
    have h2 := addToFavorites_present _ uid _ P hu1 (by simp)
    rw [h1]
    simp only []
    rw [h2]
    have hstored : storedFavourites
        (saveUser db uid { u with favourites := u.favourites ++ [P] }) uid
          = u.favourites ++ [P] := by
      simp [storedFavourites, saveUser]
    refine ⟨rfl, ⟨_, rfl⟩, fun _ => ⟨hstored, ?_, rfl⟩, ?_⟩
    · rw [hstored, List.count_append, List.count_eq_zero_of_not_mem hP]
      simp
    · intro hnil
      rw [hstored, hnil]
      rfl

/-- Witness for `addToFavorites_idempotent`: the user of `demoDb`, whose favourites are
empty, adds product 7 twice. -/
theorem addToFavorites_idempotent_witness :
    storedFavourites
        (addToFavorites (addToFavorites demoDb (asUser 1) 7).db (asUser 1) 7).db 1
      = [7] :=
  (addToFavorites_idempotent demoDb 1 demoUser 7 rfl).2.2.2 rfl

/-- C7: for an existing user and a product `P`, `removeFromFavorites(U, P)` stores as
favourites the old favourites without the entries equal to `P` (the others kept, in
order), touches nothing else of the user, counts exactly one `save()` and answers 200;
when `P` was not among the favourites the stored favourites are the old ones and the
`save()` is counted all the same. -/
theorem removeFromFavorites_result (db : Db) (uid : UserRef) (u : User) (P : ProductRef)
    (hu : db.users uid = some u) :
    (removeFromFavorites db (asUser uid) P).db.users uid
        = some { u with favourites := u.favourites.filter (fun fav => decide (fav ≠ P)) } ∧
    (∀ x, x ∈ storedFavourites (removeFromFavorites db (asUser uid) P).db uid ↔
      x ∈ u.favourites ∧ x ≠ P) ∧
    (storedFavourites (removeFromFavorites db (asUser uid) P).db uid).Sublist u.favourites ∧
    (removeFromFavorites db (asUser uid) P).db.writes = db.writes + 1 ∧
    (∃ saved, (removeFromFavorites db (asUser uid) P).reply
      = .json 200 ⟨"Product removed from favorites successfully", saved⟩) ∧
    (P ∉ u.favourites →
      storedFavourites (removeFromFavorites db (asUser uid) P).db uid = u.favourites ∧
        (removeFromFavorites db (asUser uid) P).db.writes = db.writes + 1) := by
  have hfilter : u.favourites.filter (fun fav => !(fav == P))
      = u.favourites.filter (fun fav => decide (fav ≠ P)) := by
    congr 1
    funext fav
    by_cases hfav : fav = P <;> simp [hfav]
  have h : removeFromFavorites db (asUser uid) P
      = ⟨saveUser db uid
            { u with favourites := u.favourites.filter (fun fav => decide (fav ≠ P)) },
          .json 200 ⟨"Product removed from favorites successfully",
            { u with favourites := u.favourites.filter (fun fav => decide (fav ≠ P)) }⟩⟩ := by
    simp [removeFromFavorites, asUser, findById, hu, hfilter]
  rw [h]
  have hstored : storedFavourites
      (saveUser db uid
        { u with favourites := u.favourites.filter (fun fav => decide (fav ≠ P)) }) uid
        = u.favourites.filter (fun fav => decide (fav ≠ P)) := by
    simp [storedFavourites, saveUser]
  rw [hstored]
  refine ⟨by simp [saveUser], ?_, List.filter_sublist _, rfl, ⟨_, rfl⟩, ?_⟩
  · intro x
    simp [List.mem_filter]
  · intro hP
    refine ⟨?_, rfl⟩
    rw [List.filter_eq_self]
    intro a ha
    have : a ≠ P := fun hEq => hP (hEq ▸ ha)
    simpa using this

/-- Witness for `removeFromFavorites_result`: the user of `demoDb` has no favourites and
removes product 7; the favourites stay empty and one `save()` is counted. -/
theorem removeFromFavorites_result_witness :
    storedFavourites (removeFromFavorites demoDb (asUser 1) 7).db 1 = demoUser.favourites ∧
      (removeFromFavorites demoDb (asUser 1) 7).db.writes = demoDb.writes + 1 :=
  (removeFromFavorites_result demoDb 1 demoUser 7 rfl).2.2.2.2.2 (by decide)

/-- C8: for an existing user, `placeOrder` answers 200 with the order built from the
given products, address and total and referring to that user; afterwards the stored
cart of the user is empty, the rest of the user document is unchanged, and the order
collection is the old one followed by exactly that order. -/
theorem placeOrder_result (db : Db) (uid : UserRef) (u : User) (products : List CartLine)
    (address : String) (totalAmount : Int) (hu : db.users uid = some u) :
    (placeOrder db (asUser uid) products address totalAmount).reply
        = .json 200 ⟨"Order placed successfully",
            { products := products, user := uid, total_amount := totalAmount,
              address := address }⟩ ∧
    storedCart (placeOrder db (asUser uid) products address totalAmount).db uid = [] ∧
    (placeOrder db (asUser uid) products address totalAmount).db.users uid
        = some { u with cart := [] } ∧
    (placeOrder db (asUser uid) products address totalAmount).db.orders
        = db.orders ++
            [{ products := products, user := uid, total_amount := totalAmount,
               address := address }] ∧
    (placeOrder db (asUser uid) products address totalAmount).db.orders.length
        = db.orders.length + 1 := by
  have h : placeOrder db (asUser uid) products address totalAmount
      = ⟨saveUser
            (saveOrder db
              { products := products, user := uid, total_amount := totalAmount,
                address := address })
            uid { u with cart := [] },
          .json 200 ⟨"Order placed successfully",
            { products := products, user := uid, total_amount := totalAmount,
              address := address }⟩⟩ := by
    simp [placeOrder, asUser, findById, hu]
  rw [h]
  refine ⟨rfl, storedCart_saveUser_same _ _ _, by simp [saveUser], ?_, ?_⟩
  · simp [saveUser, saveOrder]
  · simp [saveUser, saveOrder]

/-- Witness for `placeOrder_result`: the user of `demoDb` orders the two units of
product 7 in the cart. -/
theorem placeOrder_result_witness :
    storedCart
        (placeOrder demoDb (asUser 1) [{ product := 7, quantity := 2 }] "1 Main St" 40).db 1
      = [] :=
  (placeOrder_result demoDb 1 demoUser [{ product := 7, quantity := 2 }] "1 Main St" 40
    rfl).2.1

/-! ## Claims on reading the favourites -/

/-- What `getUserFavourites` does on a request that carries an identity: 401 when the
identity has no id, 404 when no user record is found, else 200 with the populated
favourites; the store is returned as it was. -/
theorem getUserFavourites_with_identity (db : Db) (identity : Identity) :
    (getUserFavourites db (some identity)).db = db ∧
    (identity.id = none →
      (getUserFavourites db (some identity)).reply
        = .next (createError 401 "User not found")) ∧
    (∀ uid, identity.id = some uid → db.users uid = none →
      (getUserFavourites db (some identity)).reply
        = .next (createError 404 "User not found")) ∧
    (∀ uid u, identity.id = some uid → db.users uid = some u →
      (getUserFavourites db (some identity)).reply
        = .json 200 (populate db u.favourites)) := by
  obtain ⟨id⟩ := identity
  cases id with
  | none => simp [getUserFavourites]
  | some uid =>
    cases hu : db.users uid with
    | none =>
      refine ⟨by simp [getUserFavourites, findById, hu], by simp, ?_, ?_⟩
      · intro uid' hid _
        simp [getUserFavourites, findById, hu]
      · intro uid' u' hid hu'
        cases hid
        rw [hu] at hu'
        cases hu'
    | some u =>
      refine ⟨by simp [getUserFavourites, findById, hu], by simp, ?_, ?_⟩
      · intro uid' hid hu'
        cases hid
        rw [hu] at hu'
        cases hu'
      · intro uid' u' hid hu'
        cases hid
        rw [hu] at hu'
        cases hu'
        simp [getUserFavourites, findById, hu]

/-- C9, at the failing input: on a request without `req.user`, `getUserFavourites`
hands `next` an error of status 500 whose message is that of the `TypeError` raised by
`req.user.id`, not an error of status 401; the store is untouched. -/
theorem getUserFavourites_without_identity :
    (getUserFavourites demoDb none).reply
        = .next (createError 500 "Cannot read properties of undefined (reading 'id')") ∧
      (∀ err, (getUserFavourites demoDb none).reply = .next err → err.status ≠ some 401) ∧
      (getUserFavourites demoDb none).db.writes = demoDb.writes := by
  refine ⟨by decide, ?_, rfl⟩
  intro err herr
  have h500 : (getUserFavourites demoDb none).reply
      = .next (createError 500 "Cannot read properties of undefined (reading 'id')") := by
    decide
  rw [h500] at herr
  cases herr
  decide

/-! ## Header lemmas -/

theorem splitSpace_no_space (w : List Char) (h : ' ' ∉ w) : splitSpace w = [w] := by
  induction w with
  | nil => rfl
  | cons c cs ih =>
    have hc : c ≠ ' ' := fun hEq => h (hEq ▸ List.mem_cons_self _ _)
    have hcs : ' ' ∉ cs := fun hmem => h (List.mem_cons_of_mem _ hmem)
    simp [splitSpace, hc, ih hcs]

theorem splitSpace_word_space (w cs : List Char) (h : ' ' ∉ w) :
    splitSpace (w ++ ' ' :: cs) = w :: splitSpace cs := by
  induction w with
  | nil => simp [splitSpace]
  | cons c w ih =>
    have hc : c ≠ ' ' := fun hEq => h (hEq ▸ List.mem_cons_self _ _)
    have hw : ' ' ∉ w := fun hmem => h (List.mem_cons_of_mem _ hmem)
    simp [splitSpace, hc, ih hw]

theorem chars_split (cs : List Char) :
    ' ' ∉ cs ∨ ∃ w rest, cs = w ++ ' ' :: rest ∧ ' ' ∉ w := by
  induction cs with
  | nil => exact Or.inl (by simp)
  | cons c cs ih =>
    by_cases hc : c = ' '
    · exact Or.inr ⟨[], cs, by simp [hc], by simp⟩
    · rcases ih with hno | ⟨w, rest, hcs, hw⟩
      · left
        intro hmem
        rcases List.mem_cons.mp hmem with hEq | hmem
        · exact hc hEq.symm
        · exact hno hmem
      · right
        refine ⟨c :: w, rest, by simp [hcs], ?_⟩
        intro hmem
        rcases List.mem_cons.mp hmem with hEq | hmem
        · exact hc hEq.symm
        · exact hw hmem

theorem splitSpace_first (w tail : List Char) (h : ' ' ∉ w)
    (ht : tail = [] ∨ ∃ t, tail = ' ' :: t) : (splitSpace (w ++ tail))[0]? = some w := by
  rcases ht with rfl | ⟨t, rfl⟩
  · simp [splitSpace_no_space w h]
  · simp [splitSpace_word_space w t h]

theorem splitSpace_second (cs token : List Char) :
    (splitSpace cs)[1]? = some token ↔
      ∃ scheme rest, cs = scheme ++ ' ' :: (token ++ rest) ∧ ' ' ∉ scheme ∧ ' ' ∉ token ∧
        (rest = [] ∨ ∃ t, rest = ' ' :: t) := by
  constructor
  · intro h
    rcases chars_split cs with hno | ⟨w, r, hcs, hw⟩
    · rw [splitSpace_no_space cs hno] at h
      simp at h
    · rw [hcs, splitSpace_word_space w r hw] at h
      rcases chars_split r with hrno | ⟨w2, r2, hr, hw2⟩
      · rw [splitSpace_no_space r hrno] at h
        simp at h
        subst h
        exact ⟨w, [], by simp [hcs], hw, hrno, Or.inl rfl⟩
      · rw [hr, splitSpace_word_space w2 r2 hw2] at h
        simp at h
        subst h
        exact ⟨w, ' ' :: r2, by simp [hcs, hr], hw, hw2, Or.inr ⟨r2, rfl⟩⟩
  · rintro ⟨scheme, rest, hcs, hscheme, htoken, hrest⟩
    rw [hcs, splitSpace_word_space scheme _ hscheme]
    have := splitSpace_first token rest htoken hrest
    simpa using this

theorem secondField_eq_some_iff (authorization token : String) :
    secondField authorization = some token ↔
      ∃ scheme rest, authorization = String.mk (scheme ++ ' ' :: (token.data ++ rest)) ∧
        ' ' ∉ scheme ∧ ' ' ∉ token.data ∧ (rest = [] ∨ ∃ t, rest = ' ' :: t) := by
  unfold secondField
  rw [Option.map_eq_some']
  constructor
  · rintro ⟨chars, hchars, hmk⟩
    subst hmk
    obtain ⟨scheme, rest, hcs, h1, h2, h3⟩ := (splitSpace_second _ _).mp hchars
    exact ⟨scheme, rest, by rw [← hcs], h1, h2, h3⟩
  · rintro ⟨scheme, rest, hauth, h1, h2, h3⟩
    refine ⟨token.data, ?_, rfl⟩
    rw [hauth]
    exact (splitSpace_second _ _).mpr ⟨scheme, rest, rfl, h1, h2, h3⟩

theorem requestToken_eq_some_iff (req : Request) (token : String) :
    requestToken req = some token ↔ HeaderToken req.authorization token := by
  unfold requestToken HeaderToken
  cases hauth : req.authorization with
  | none => simp
  | some authorization =>
    constructor
    · intro h
      by_cases hempty : authorization = ""
      · simp [hempty] at h
      · cases hfield : secondField authorization with
        | none => simp [hempty, hfield] at h
        | some tok =>
          by_cases htok : tok = ""
          · simp [hempty, hfield, htok] at h
          · simp only [hempty, hfield, htok, if_false] at h
            cases h
            obtain ⟨scheme, rest, ha, h1, h2, h3⟩ :=
              (secondField_eq_some_iff authorization token).mp hfield
            refine ⟨scheme, rest, by rw [ha], h1, h2, ?_, h3⟩
            intro hdata
            exact htok (String.ext hdata)
    · rintro ⟨scheme, rest, ha, h1, h2, h3, h4⟩
      cases ha
      have hfield := (secondField_eq_some_iff
        (String.mk (scheme ++ ' ' :: (token.data ++ rest))) token).mpr
        ⟨scheme, rest, rfl, h1, h2, h4⟩
      have hne : String.mk (scheme ++ ' ' :: (token.data ++ rest)) ≠ "" := by
        intro hEq
        have := congrArg String.data hEq
        simp at this
      have htok : token ≠ "" := by
        intro hEq
        exact h3 (by rw [hEq])
      simp [hne, hfield, htok]

theorem requestToken_eq_none_iff (req : Request) :
    requestToken req = none ↔ ¬ ∃ token, HeaderToken req.authorization token := by
  constructor
  · rintro h ⟨token, htoken⟩
    rw [(requestToken_eq_some_iff req token).mpr htoken] at h
    cases h
  · intro h
    cases hreq : requestToken req with
    | none => rfl
    | some token => exact absurd ⟨token, (requestToken_eq_some_iff req token).mp hreq⟩ h

theorem requestToken_no_space (req : Request) (chars : List Char)
    (hauth : req.authorization = some (String.mk chars)) (hno : ' ' ∉ chars) :
    requestToken req = none := by
  rw [requestToken_eq_none_iff]
  rintro ⟨token, scheme, rest, ha, _, _, _, _⟩
  rw [hauth] at ha
  have hchars : chars = scheme ++ ' ' :: (token.data ++ rest) :=
    congrArg String.data (Option.some.inj ha)
  exact hno (by rw [hchars]; simp)

theorem requestToken_empty_field (req : Request) (scheme rest : List Char)
    (hauth : req.authorization = some (String.mk (scheme ++ ' ' :: rest)))
    (hscheme : ' ' ∉ scheme) (hrest : rest = [] ∨ ∃ tail, rest = ' ' :: tail) :
    requestToken req = none := by
  have hfield : secondField (String.mk (scheme ++ ' ' :: rest)) = some "" :=
    (secondField_eq_some_iff _ "").mpr ⟨scheme, rest, rfl, hscheme, by simp, hrest⟩
  unfold requestToken
  rw [hauth]
  simp [hfield]

theorem headerToken_bearer (token : String) (hspace : ' ' ∉ token.data)
    (hne : token.data ≠ []) : HeaderToken (some ("Bearer " ++ token)) token := by
  refine ⟨"Bearer".data, [], ?_, by decide, hspace, hne, Or.inl rfl⟩
  congr 1
  apply String.ext
  simp [String.data_append]

/-! ## Claims on the identity gate -/

theorem verifyToken_of_no_token (verify : String → Except JsError Identity) (req : Request)
    (h : requestToken req = none) :
    verifyToken verify req = ⟨req, some (createError 401 "You are not authenticated!")⟩ := by
  unfold requestToken at h
  unfold verifyToken
  cases hauth : req.authorization with
  | none => rfl
  | some authorization =>
    rw [hauth] at h
    by_cases hempty : authorization = ""
    · simp [hempty]
    · cases hfield : secondField authorization with
      | none => simp [hempty, hfield]
      | some token =>
        by_cases htoken : token = ""
        · simp [hempty, hfield, htoken]
        · simp [hempty, hfield, htoken] at h

theorem verifyToken_of_token (verify : String → Except JsError Identity) (req : Request)
    (token : String) (h : requestToken req = some token) :
    verifyToken verify req
      = match verify token with
        | .ok decode => ⟨{ req with user := some decode }, none⟩
        | .error err =>
          ⟨req, some (createError 401
            (if err.name = "TokenExpiredError" then "Token has expired"
              else "Invalid token"))⟩ := by
  unfold requestToken at h
  unfold verifyToken
  cases hauth : req.authorization with
  | none => simp [hauth] at h
  | some authorization =>
    rw [hauth] at h
    by_cases hempty : authorization = ""
    · simp [hempty] at h
    · cases hfield : secondField authorization with
      | none => simp [hempty, hfield] at h
      | some tok =>
        by_cases htoken : tok = ""
        · simp [hempty, hfield, htoken] at h
        · simp only [hempty, hfield, htoken, if_false] at h
          cases h
          simp [hempty, hfield, htoken]

/-- The four outcomes of the gate in terms of `requestToken`. -/
theorem verifyToken_by_token (verify : String → Except JsError Identity) (req : Request) :
    ((verifyToken verify req).next = some (createError 401 "You are not authenticated!") ↔
      requestToken req = none) ∧
    ((verifyToken verify req).next = some (createError 401 "Token has expired") ↔
      ∃ token err, requestToken req = some token ∧ verify token = .error err ∧
        err.name = "TokenExpiredError") ∧
    ((verifyToken verify req).next = some (createError 401 "Invalid token") ↔
      ∃ token err, requestToken req = some token ∧ verify token = .error err ∧
        err.name ≠ "TokenExpiredError") ∧
    ((verifyToken verify req).next = none ↔
      ∃ token decode, requestToken req = some token ∧ verify token = .ok decode) ∧
    (∀ token decode, requestToken req = some token → verify token = .ok decode →
      (verifyToken verify req).req = { req with user := some decode }) ∧
    ((verifyToken verify req).next = none →
      ∃ decode, (verifyToken verify req).req.user = some decode) ∧
    ((verifyToken verify req).next ≠ none → (verifyToken verify req).req = req) ∧
    ((verifyToken verify req).next = some (createError 401 "You are not authenticated!") ∨
      (verifyToken verify req).next = some (createError 401 "Token has expired") ∨
      (verifyToken verify req).next = some (createError 401 "Invalid token") ∨
      (verifyToken verify req).next = none) := by
  cases htok : requestToken req with
  | none =>
    rw [verifyToken_of_no_token verify req htok]
    simp [createError]
  | some token =>
    rw [verifyToken_of_token verify req token htok]
    cases hver : verify token with
    | ok decode =>
      simp only [createError]
      refine ⟨by simp, ?_, ?_, ?_, ?_, by simp, by simp, by simp⟩
      · simp only [reduceCtorEq, false_iff]
        rintro ⟨tok, err, htok', herr, _⟩
        cases htok'
        rw [hver] at herr
        cases herr
      · simp only [reduceCtorEq, false_iff]
        rintro ⟨tok, err, htok', herr, _⟩
        cases htok'
        rw [hver] at herr
        cases herr
      · simp only [true_iff]
        exact ⟨token, decode, rfl, hver⟩
      · intro tok decode' htok' hdec
        cases htok'
        rw [hver] at hdec
        cases hdec
        rfl
    | error err =>
      have hnot : ¬ ∃ tok decode, some token = some tok ∧ verify tok = .ok decode := by
        rintro ⟨tok, decode, htok', hdec⟩
        cases htok'
        rw [hver] at hdec
        cases hdec
      have hreq : ∀ tok decode, some token = some tok → verify tok = .ok decode →
          req = { req with user := some decode } := by
        intro tok decode htok' hdec
        cases htok'
        rw [hver] at hdec
        cases hdec
      by_cases hname : err.name = "TokenExpiredError"
      · simp only [hname, if_true]
        refine ⟨by simp [createError], ?_, ?_, ?_, hreq, by simp, by simp, by simp⟩
        · simp only [true_iff]
          exact ⟨token, err, rfl, hver, hname⟩
        · have hne : (some (createError 401 "Token has expired") : Option JsError)
              ≠ some (createError 401 "Invalid token") := by decide
          simp only [hne, false_iff]
          rintro ⟨tok, err', htok', herr, hname'⟩
          cases htok'
          rw [hver] at herr
          cases herr
          exact hname' hname
        · simp only [reduceCtorEq, false_iff]
          exact hnot
      · simp only [hname, if_false]
        refine ⟨by simp [createError], ?_, ?_, ?_, hreq, by simp, by simp, by simp⟩
        · have hne : (some (createError 401 "Invalid token") : Option JsError)
              ≠ some (createError 401 "Token has expired") := by decide
          simp only [hne, false_iff]
          rintro ⟨tok, err', htok', herr, hname'⟩
          cases htok'
          rw [hver] at herr
          cases herr
          exact hname hname'
        · simp only [true_iff]
          exact ⟨token, err, rfl, hver, hname⟩
        · simp only [reduceCtorEq, false_iff]
          exact hnot

/-- C10: for every request and every token oracle, `verifyToken` ends in exactly one
of four ways, decided by the text of the `Authorization` header and the oracle. Say the
header carries `token` when its text is a scheme word, one space, the non-empty `token`
without spaces, and then nothing or a further space (`HeaderToken`). The gate calls
`next` with the 401 error "You are not authenticated!" exactly when the header carries
no token: in particular when it is missing, has no space, or has its first space
followed by nothing or by another space. It calls `next` with the 401 error "Token has
expired" exactly when the oracle fails on the carried token with an error named
`TokenExpiredError`, and with the 401 error "Invalid token" exactly when the oracle
fails on it with any other error. It calls the plain `next()` exactly when the oracle
accepts the carried token, and then `req.user` is the decoded identity; in particular
the header `Bearer <token>` has `<token>` itself handed to the oracle. The four
arguments of `next` are pairwise different, a rejected request is left as it was, and
the plain `next()` never happens without an identity in `req.user`. -/
theorem verifyToken_outcomes (verify : String → Except JsError Identity) (req : Request) :
    ((verifyToken verify req).next = some (createError 401 "You are not authenticated!") ↔
      ¬ ∃ token, HeaderToken req.authorization token) ∧
    ((verifyToken verify req).next = some (createError 401 "Token has expired") ↔
      ∃ token err, HeaderToken req.authorization token ∧ verify token = .error err ∧
        err.name = "TokenExpiredError") ∧
    ((verifyToken verify req).next = some (createError 401 "Invalid token") ↔
      ∃ token err, HeaderToken req.authorization token ∧ verify token = .error err ∧
        err.name ≠ "TokenExpiredError") ∧
    ((verifyToken verify req).next = none ↔
      ∃ token decode, HeaderToken req.authorization token ∧ verify token = .ok decode) ∧
    (∀ token decode, HeaderToken req.authorization token → verify token = .ok decode →
      (verifyToken verify req).req = { req with user := some decode }) ∧
    ((verifyToken verify req).next = none →
      ∃ decode, (verifyToken verify req).req.user = some decode) ∧
    ((verifyToken verify req).next ≠ none → (verifyToken verify req).req = req) ∧
    ((verifyToken verify req).next = some (createError 401 "You are not authenticated!") ∨
      (verifyToken verify req).next = some (createError 401 "Token has expired") ∨
      (verifyToken verify req).next = some (createError 401 "Invalid token") ∨
      (verifyToken verify req).next = none) ∧
    (req.authorization = none →
      (verifyToken verify req).next
        = some (createError 401 "You are not authenticated!")) ∧
    (∀ chars : List Char, req.authorization = some (String.mk chars) → ' ' ∉ chars →
      (verifyToken verify req).next
        = some (createError 401 "You are not authenticated!")) ∧
    (∀ scheme rest : List Char,
      req.authorization = some (String.mk (scheme ++ ' ' :: rest)) → ' ' ∉ scheme →
      (rest = [] ∨ ∃ tail, rest = ' ' :: tail) →
      (verifyToken verify req).next
        = some (createError 401 "You are not authenticated!")) ∧
    (∀ token : String, ' ' ∉ token.data → token.data ≠ [] →
      req.authorization = some ("Bearer " ++ token) →
      verifyToken verify req
        = match verify token with
          | .ok decode => ⟨{ req with user := some decode }, none⟩
          | .error err =>
            ⟨req, some (createError 401
              (if err.name = "TokenExpiredError" then "Token has expired"
                else "Invalid token"))⟩) := by
  obtain ⟨h1, h2, h3, h4, h5, h6, h7, h8⟩ := verifyToken_by_token verify req
  simp only [requestToken_eq_some_iff] at h2 h3 h4 h5
  rw [requestToken_eq_none_iff] at h1
  refine ⟨h1, h2, h3, h4, h5, h6, h7, h8, ?_, ?_, ?_, ?_⟩
  · intro hnone
    rw [verifyToken_of_no_token verify req (by simp [requestToken, hnone])]
  · intro chars hauth hno
    rw [verifyToken_of_no_token verify req (requestToken_no_space req chars hauth hno)]
  · intro scheme rest hauth hscheme hrest
    rw [verifyToken_of_no_token verify req
      (requestToken_empty_field req scheme rest hauth hscheme hrest)]
  · intro token hspace hne hauth
    have hheader : HeaderToken req.authorization token := by
      rw [hauth]
      exact headerToken_bearer token hspace hne
    exact verifyToken_of_token verify req token
      ((requestToken_eq_some_iff req token).mpr hheader)

/-- The gate on sample headers: a well-formed bearer header passes with the identity
attached; an expired and a malformed token, a header without a token and a missing
header are rejected, each with its own message. -/
theorem verifyToken_samples :
    verifyToken demoVerify ⟨some "Bearer good", none⟩
        = ⟨⟨some "Bearer good", some { id := some 1 }⟩, none⟩ ∧
      verifyToken demoVerify ⟨some "Bearer old", none⟩
        = ⟨⟨some "Bearer old", none⟩, some (createError 401 "Token has expired")⟩ ∧
      verifyToken demoVerify ⟨some "Bearer bad", none⟩
        = ⟨⟨some "Bearer bad", none⟩, some (createError 401 "Invalid token")⟩ ∧
      verifyToken demoVerify ⟨some "Bearer", none⟩
        = ⟨⟨some "Bearer", none⟩, some (createError 401 "You are not authenticated!")⟩ ∧
      verifyToken demoVerify ⟨some "Bearer  good", none⟩
        = ⟨⟨some "Bearer  good", none⟩,
            some (createError 401 "You are not authenticated!")⟩ ∧
      verifyToken demoVerify ⟨none, none⟩
        = ⟨⟨none, none⟩, some (createError 401 "You are not authenticated!")⟩ := by
  decide

end Storefront
